import Mathlib

/-!
Shallow embedding of the connection-resolution and validation engine of
`openmdao/core/problem.py` (the `Problem.setup` pipeline and its helper
functions), together with proofs of the spec's claims about it.

Python dynamic values are modelled as follows.

* A variable's shape field (`metadata.get('shape')`, later `VarMetadata.shape`)
  can hold a Python value of any runtime type; the code dispatches on
  `type(shape)`.  We model it by `PyShape`, whose constructors track the
  relevant runtime types: a tuple of ints, `None` (also covering a missing
  `'shape'` key, since `dict.get` returns `None` then), a Python list of
  ints, and a catch-all for any other runtime type.
* A variable's value (`metadata['val']`) is modelled by `PyVal`, carrying
  the name of its runtime class (`type(val)`, used by the type check) and
  its runtime dimensions (`val.shape`, used by `__check_val_and_shape_match`;
  values are modelled as ndarray-like, carrying a runtime shape).
* Exceptions are modelled by `Except PyError`.  Error messages are modelled
  structurally: each error constructor carries exactly the data the
  corresponding Python `format`/`%` message interpolates, in order.
* Python dicts are modelled as association lists (`List (key × value)`) in
  insertion order, with first-match lookup; `dict.update` replaces values of
  existing keys in place and appends new keys in the argument's order.
-/

/-- Runtime type of a Python shape value, i.e. what `type(shape)` returns. -/
inductive PyShapeTy where
  | tupleTy
  | noneTy
  | listTy
  | otherTy (className : String)
deriving DecidableEq

/-- A Python value stored in a shape field. -/
inductive PyShape where
  | tup (dims : List Nat)
  | pyNone
  | plist (dims : List Nat)
  | other (className : String)
deriving DecidableEq

/-- `type(shape)`: the runtime type of a shape value. -/
def PyShape.ty : PyShape → PyShapeTy
  | .tup _ => .tupleTy
  | .pyNone => .noneTy
  | .plist _ => .listTy
  | .other c => .otherTy c

/-- A variable's value: its runtime class name (`type(val)`) and its runtime
dimensions (`val.shape`). -/
structure PyVal where
  kind : String
  dims : List Nat
deriving DecidableEq

/-- The raw variable descriptor dict: `metadata['val']` and
`metadata.get('shape')` (a missing key is `PyShape.pyNone`). -/
structure Metadata where
  val : PyVal
  shape : PyShape
deriving DecidableEq

/-- `VarMetadata = namedtuple('VarMetadata', 'path val type shape')`. -/
structure VarMetadata where
  path : String
  val : PyVal
  type : String
  shape : PyShape
deriving DecidableEq

/-- Payload of a `ConnectError`: the data interpolated into its message. -/
inductive ConnectErrorData where
  | typeMismatch (srcPath srcType tgtPath tgtType : String)
  | shapeMismatch (srcShape : PyShape) (srcPath : String) (tgtShape : PyShape) (tgtPath : String)
  | valShapeMismatch (valDims : List Nat) (srcPath : String) (tgtShape : PyShape) (tgtPath : String)
deriving DecidableEq

/-- The exceptions the resolution pipeline can raise. `typeError` is the raw
Python `TypeError` from subscripting the `None` returned by a failed dict
lookup; `conflict` and `hanging` are the two `RuntimeError`s raised by
`Problem.setup`, carrying the data their messages interpolate. -/
inductive PyError where
  | typeError
  | connect (e : ConnectErrorData)
  | conflict (tgt expSrc impSrc : String)
  | hanging (params : List String)
deriving DecidableEq

/-- First-match lookup in an association list, modelling `d.get(k)` /
`k in d` on a Python dict. -/
def dictLookup {β : Type} : List (String × β) → String → Option β
  | [], _ => none
  | (k, v) :: rest, key => if k = key then some v else dictLookup rest key

/-- `d[k] = v` on a Python dict: replace the value of an existing key in
place, else append the new pair. -/
def setValue {β : Type} : List (String × β) → String → β → List (String × β)
  | [], k, v => [(k, v)]
  | (k', v') :: rest, k, v =>
    if k' = k then (k, v) :: rest else (k', v') :: setValue rest k v

/-- `d.update(upd)` on Python dicts: existing keys keep their position and
take the new value, new keys are appended in `upd`'s order. -/
def dictUpdate {β : Type} (d upd : List (String × β)) : List (String × β) :=
  upd.foldl (fun acc kv => setValue acc kv.1 kv.2) d

/-- `make_var_metadata(path, metadata)`.  The `metadata` argument is the
result of a dict `.get`, so it may be `None` (`none` here); subscripting it
then raises a raw `TypeError`. -/
def make_var_metadata (path : String) (metadata : Option Metadata) :
    Except PyError VarMetadata :=
  match metadata with
  | none => .error .typeError
  | some m => .ok ⟨path, m.val, m.val.kind, m.shape⟩

/-- `check_types_match(src, target)`. -/
def check_types_match (src target : VarMetadata) : Except PyError Unit :=
  if src.type ≠ target.type then
    .error (.connect (.typeMismatch src.path src.type target.path target.type))
  else
    .ok ()

/-- `__check_shapes_match(src, target)`: compares the two declared shapes. -/
def __check_shapes_match (src target : VarMetadata) : Except PyError Unit :=
  if src.shape ≠ target.shape then
    .error (.connect (.shapeMismatch src.shape src.path target.shape target.path))
  else
    .ok ()

/-- `__check_val_and_shape_match(src, target)`: compares the runtime shape of
the source's value (a tuple of dims) with the target's declared shape. -/
def __check_val_and_shape_match (src target : VarMetadata) : Except PyError Unit :=
  if PyShape.tup src.val.dims ≠ target.shape then
    .error (.connect (.valShapeMismatch src.val.dims src.path target.shape target.path))
  else
    .ok ()

/-- `check_shapes_match(source, target)`: look up
`(type(source.shape), type(target.shape))` in the `__shape_checks` dispatch
dict — `{(tuple, tuple): __check_shapes_match, (NoneType, tuple):
__check_val_and_shape_match}` — defaulting to the no-op `lambda x, y: None`
for every unregistered type pair. -/
def check_shapes_match (source target : VarMetadata) : Except PyError Unit :=
  match source.shape.ty, target.shape.ty with
  | .tupleTy, .tupleTy => __check_shapes_match source target
  | .noneTy, .tupleTy => __check_val_and_shape_match source target
  | _, _ => .ok ()

/-- Body of the loop in `check_connections`: the two checks run on one
connection's source and target metadata, in order. -/
def validate_connection (source target : VarMetadata) : Except PyError Unit := do
  check_types_match source target
  check_shapes_match source target

/-- `check_connections(connections, params, unknowns)`.  The Python builds
two lazy `map` generators (source metadata from `unknowns`, target metadata
from `params`) and `zip`s them, so for each connection in order the source
metadata is forced first, then the target's, then the two checks run. -/
def check_connections :
    List (String × String) → List (String × Metadata) → List (String × Metadata) →
    Except PyError Unit
  | [], _, _ => .ok ()
  | (tgt, src) :: rest, params, unknowns => do
    let source ← make_var_metadata src (dictLookup unknowns src)
    let target ← make_var_metadata tgt (dictLookup params tgt)
    validate_connection source target
    check_connections rest params unknowns

/-- The conflict loop of `Problem.setup`: for each explicit `(tgt, src)` in
order, if `tgt` is a key of `implicit_conns`, raise
`RuntimeError('%s is explicitly connected to %s but implicitly connected to
%s' % (tgt, connections[tgt], implicit_conns[tgt]))`.  (`connections[tgt]`
is the iterated `src`, since dict iteration yields each key with its value.) -/
def setup_conflict_check :
    List (String × String) → List (String × String) → Except PyError Unit
  | [], _ => .ok ()
  | (tgt, src) :: rest, implicit_conns =>
    match dictLookup implicit_conns tgt with
    | some isrc => .error (.conflict tgt src isrc)
    | none => setup_conflict_check rest implicit_conns

/-- The conflict-check-and-merge step of `Problem.setup`: the conflict loop
followed by `connections.update(implicit_conns)`. -/
def setup_reconcile (connections implicit_conns : List (String × String)) :
    Except PyError (List (String × String)) :=
  match setup_conflict_check connections implicit_conns with
  | .error e => .error e
  | .ok () => .ok (dictUpdate connections implicit_conns)

/-- The hanging-parameter loop of `Problem.setup`: every `p` in `params_dict`
with `p not in connections.keys()`, in order. -/
def hanging_params (params_dict : List String) (connections : List (String × String)) :
    List String :=
  params_dict.filter fun p => (dictLookup connections p).isNone

/-- The completeness step of `Problem.setup`: raise
`RuntimeError('Parameters %s have no associated unknowns.' % hanging_params)`
when the hanging-parameter list is non-empty. -/
def setup_check_complete (params_dict : List String)
    (connections : List (String × String)) : Except PyError Unit :=
  if hanging_params params_dict connections ≠ [] then
    .error (.hanging (hanging_params params_dict connections))
  else
    .ok ()

/-- Worker for `pySplitColon`: `acc` holds the current segment reversed. -/
def pySplitColonAux : List Char → List Char → List String
  | [], acc => [String.mk acc.reverse]
  | c :: cs, acc =>
    if c = ':' then String.mk acc.reverse :: pySplitColonAux cs [] else pySplitColonAux cs (c :: acc)

/-- Python `str.split(':')`: split on every colon, keeping empty segments. -/
def pySplitColon (s : String) : List String :=
  pySplitColonAux s.data []

/-- Python `':'.join(parts)`. -/
def colonJoin : List String → String
  | [] => ""
  | [s] => s
  | s :: rest => s ++ ":" ++ colonJoin rest

/-- The inner loop of `assign_parameters`: walk `zip(par.split(':'),
unk.split(':'))` collecting equal segments, `break` at the first mismatch. -/
def common_parts : List String → List String → List String
  | p :: ps, u :: us => if p = u then p :: common_parts ps us else []
  | _, _ => []

/-- The owner computed for one connection by `assign_parameters`:
`':'.join(common_parts)`. -/
def ownerOf (par unk : String) : String :=
  colonJoin (common_parts (pySplitColon par) (pySplitColon unk))

/-- `param_owners.setdefault(owner, []).append(par)` on the association-list
model of the dict: append `par` to the list of the first entry keyed `owner`,
or append a fresh `(owner, [par])` entry at the end. -/
def insertOwner : List (String × List String) → String → String →
    List (String × List String)
  | [], owner, par => [(owner, [par])]
  | (k, v) :: rest, owner, par =>
    if k = owner then (k, v ++ [par]) :: rest else (k, v) :: insertOwner rest owner par

/-- `assign_parameters(connections)`: for each `(par, unk)` in order, compute
the owner and append `par` to that owner's list. -/
def assign_parameters (connections : List (String × String)) :
    List (String × List String) :=
  connections.foldl (fun m pu => insertOwner m (ownerOf pu.1 pu.2) pu.1) []

/-- Target list recorded for `owner`, empty when `owner` is not a key. -/
def lookupOwner (m : List (String × List String)) (owner : String) : List String :=
  (dictLookup m owner).getD []

example : ownerOf "G1:C1:x" "G1:C2:y" = "G1" := rfl
example : ownerOf "G1:C1:x" "G1:C1:z" = "G1:C1" := rfl
example : ownerOf "A:x" "B:y" = "" := rfl
example : ownerOf "A:B:X" "A:C:X" = "A" := rfl
example :
    assign_parameters [("G1:C1:x", "G1:C2:y"), ("G1:C1:q", "G1:C1:z")] =
      [("G1", ["G1:C1:x"]), ("G1:C1", ["G1:C1:q"])] := rfl
example :
    setup_reconcile [("t1", "u1")] [("t1", "u1")] =
      .error (.conflict "t1" "u1" "u1") := rfl
example :
    setup_reconcile [("t1", "u1")] [("t2", "u2")] =
      .ok [("t1", "u1"), ("t2", "u2")] := rfl
example :
    setup_check_complete ["p1", "p2", "p3"] [("p1", "u1"), ("p3", "u3")] =
      .error (.hanging ["p2"]) := rfl

/-! ## Helper lemmas about the dict model -/

theorem dictLookup_isSome_iff {β : Type} (d : List (String × β)) (k : String) :
    (dictLookup d k).isSome ↔ k ∈ d.map Prod.fst := by
  induction d with
  | nil => simp [dictLookup]
  | cons hd rest ih =>
    obtain ⟨k', v'⟩ := hd
    by_cases h : k' = k
    · subst h
      simp [dictLookup]
    · have h' : k ≠ k' := fun hEq => h hEq.symm
      simp [dictLookup, h, h', ih]

theorem dictLookup_eq_none_iff {β : Type} (d : List (String × β)) (k : String) :
    dictLookup d k = none ↔ k ∉ d.map Prod.fst := by
  rw [← dictLookup_isSome_iff]
  cases dictLookup d k <;> simp

theorem dictLookup_append_none {β : Type} (d d' : List (String × β)) (k : String)
    (h : dictLookup d k = none) : dictLookup (d ++ d') k = dictLookup d' k := by
  induction d with
  | nil => simp
  | cons hd rest ih =>
    obtain ⟨k', v'⟩ := hd
    have hk : k' ≠ k := by
      intro hEq
      simp [dictLookup, hEq] at h
    simp only [dictLookup, if_neg hk] at h ⊢
    exact ih h

theorem setValue_append {β : Type} (d : List (String × β)) (k : String) (v : β)
    (h : dictLookup d k = none) : setValue d k v = d ++ [(k, v)] := by
  induction d with
  | nil => simp [setValue]
  | cons hd rest ih =>
    obtain ⟨k', v'⟩ := hd
    have hk : k' ≠ k := by
      intro hEq
      simp [dictLookup, hEq] at h
    simp only [dictLookup, if_neg hk] at h
    simp [setValue, hk, ih h]

theorem dictUpdate_append {β : Type} (upd d : List (String × β))
    (hdisj : ∀ kv ∈ upd, dictLookup d kv.1 = none)
    (hnodup : (upd.map Prod.fst).Nodup) :
    dictUpdate d upd = d ++ upd := by
  induction upd generalizing d with
  | nil => simp [dictUpdate]
  | cons hd rest ih =>
    obtain ⟨k, v⟩ := hd
    have h0 : dictLookup d k = none := hdisj (k, v) (by simp)
    have hstep : dictUpdate d ((k, v) :: rest) = dictUpdate (setValue d k v) rest := rfl
    rw [hstep, setValue_append d k v h0, ih (d ++ [(k, v)])]
    · simp
    · intro kv hkv
      have hne : kv.1 ≠ k := by
        intro hEq
        have hkmem : k ∈ rest.map Prod.fst := by
          rw [← hEq]
          exact List.mem_map_of_mem Prod.fst hkv
        exact (List.nodup_cons.mp hnodup).1 hkmem
      rw [dictLookup_append_none d [(k, v)] kv.1 (hdisj kv (by simp [hkv]))]
      simp [dictLookup, hne.symm]
    · exact (List.nodup_cons.mp hnodup).2

/-! ## Reconciliation: the conflict loop and merge of `Problem.setup` -/

theorem setup_conflict_check_error (explicit implicit : List (String × String))
    (tgt s1 s2 : String)
    (h1 : dictLookup explicit tgt = some s1)
    (h2 : dictLookup implicit tgt = some s2) :
    ∃ t e i, setup_conflict_check explicit implicit = .error (.conflict t e i) ∧
      dictLookup explicit t = some e ∧ dictLookup implicit t = some i := by
  induction explicit with
  | nil => simp [dictLookup] at h1
  | cons hd rest ih =>
    obtain ⟨t0, s0⟩ := hd
    by_cases hc : dictLookup implicit t0 = none
    · have ht0 : t0 ≠ tgt := by
        intro hEq
        rw [hEq, h2] at hc
        cases hc
      have h1' : dictLookup rest tgt = some s1 := by
        simpa [dictLookup, ht0] using h1
      obtain ⟨t, e, i, hrun, he, hi⟩ := ih h1'
      refine ⟨t, e, i, ?_, ?_, hi⟩
      · simpa [setup_conflict_check, hc] using hrun
      · have htne : t0 ≠ t := by
          intro hEq
          rw [hEq, hi] at hc
          cases hc
        simp [dictLookup, htne, he]
    · obtain ⟨i0, hi0⟩ : ∃ i0, dictLookup implicit t0 = some i0 := by
        cases hx : dictLookup implicit t0 with
        | none => exact absurd hx hc
        | some i0 => exact ⟨i0, rfl⟩
      exact ⟨t0, s0, i0, by simp [setup_conflict_check, hi0], by simp [dictLookup], hi0⟩

theorem setup_conflict_check_at (explicit implicit : List (String × String))
    (tgt s1 s2 : String)
    (h1 : dictLookup explicit tgt = some s1)
    (h2 : dictLookup implicit tgt = some s2)
    (huniq : ∀ t ∈ explicit.map Prod.fst, t ≠ tgt → dictLookup implicit t = none) :
    setup_conflict_check explicit implicit = .error (.conflict tgt s1 s2) := by
  induction explicit with
  | nil => simp [dictLookup] at h1
  | cons hd rest ih =>
    obtain ⟨t0, s0⟩ := hd
    by_cases ht0 : t0 = tgt
    · subst ht0
      have hs0 : s0 = s1 := by simpa [dictLookup] using h1
      subst hs0
      simp [setup_conflict_check, h2]
    · have hnone : dictLookup implicit t0 = none := huniq t0 (by simp) ht0
      have h1' : dictLookup rest tgt = some s1 := by
        simpa [dictLookup, ht0] using h1
      have huniq' : ∀ t ∈ rest.map Prod.fst, t ≠ tgt → dictLookup implicit t = none := by
        intro t ht hne
        exact huniq t (by simp [ht]) hne
      simpa [setup_conflict_check, hnone] using ih h1' huniq'

/-- C1: the spec claims that when a target is explicitly and implicitly
connected to the *same* source, reconciliation succeeds and keeps that
source.  The conflict loop of `Problem.setup` raises its `RuntimeError` for
every target present in both mappings without comparing the two sources, so
it raises even on this input, contradicting the comment introducing the loop
(`check for conflicting explicit/implicit connections` — equal sources do not
conflict) and producing the self-contradictory message
`t1 is explicitly connected to u1 but implicitly connected to u1`. -/
theorem setup_reconcile_same_source_raises :
    setup_reconcile [("t1", "u1")] [("t1", "u1")] =
      .error (.conflict "t1" "u1" "u1") := rfl

/-- C4: a target present in both mappings with differing sources makes
reconciliation fail with the conflict `RuntimeError`, whose message
interpolates a doubly-connected target together with its explicit and
implicit sources; when the overlapping target is unique it is exactly the
given one with its two sources. -/
theorem setup_reconcile_conflict (explicit implicit : List (String × String))
    (tgt s1 s2 : String)
    (h1 : dictLookup explicit tgt = some s1)
    (h2 : dictLookup implicit tgt = some s2)
    (hne : s1 ≠ s2) :
    (∃ t e i, setup_reconcile explicit implicit = .error (.conflict t e i) ∧
        dictLookup explicit t = some e ∧ dictLookup implicit t = some i) ∧
    ((∀ t ∈ explicit.map Prod.fst, t ≠ tgt → dictLookup implicit t = none) →
      setup_reconcile explicit implicit = .error (.conflict tgt s1 s2)) := by
  constructor
  · obtain ⟨t, e, i, hrun, he, hi⟩ :=
      setup_conflict_check_error explicit implicit tgt s1 s2 h1 h2
    exact ⟨t, e, i, by simp [setup_reconcile, hrun], he, hi⟩
  · intro huniq
    have h := setup_conflict_check_at explicit implicit tgt s1 s2 h1 h2 huniq
    simp [setup_reconcile, h]

/-- C4 witness: `{t1: u1}` explicit versus `{t1: u2}` implicit. -/
theorem setup_reconcile_conflict_witness :
    setup_reconcile [("t1", "u1")] [("t1", "u2")] =
      .error (.conflict "t1" "u1" "u2") := by
  have h := (setup_reconcile_conflict [("t1", "u1")] [("t1", "u2")] "t1" "u1" "u2"
      rfl rfl (by decide)).2
      (fun t ht hne => absurd (by simpa using ht) hne)
  exact h

/-- C7: when the explicit and implicit target key sets are disjoint the
conflict loop passes and `connections.update(implicit_conns)` yields exactly
the union of the two mappings. -/
theorem setup_reconcile_disjoint (explicit implicit : List (String × String))
    (hdisj : ∀ t ∈ explicit.map Prod.fst, t ∉ implicit.map Prod.fst)
    (hnodup : (implicit.map Prod.fst).Nodup) :
    setup_reconcile explicit implicit = .ok (explicit ++ implicit) := by
  have hchk : setup_conflict_check explicit implicit = .ok () := by
    induction explicit with
    | nil => rfl
    | cons hd rest ih =>
      obtain ⟨t0, s0⟩ := hd
      have hnone : dictLookup implicit t0 = none :=
        (dictLookup_eq_none_iff implicit t0).mpr (hdisj t0 (by simp))
      have ih' := ih (fun t ht => hdisj t (by simp [ht]))
      simpa [setup_conflict_check, hnone] using ih'
  have hupd : dictUpdate explicit implicit = explicit ++ implicit := by
    refine dictUpdate_append implicit explicit ?_ hnodup
    intro kv hkv
    rw [dictLookup_eq_none_iff]
    intro hmem
    exact hdisj kv.1 hmem (List.mem_map_of_mem Prod.fst hkv)
  simp [setup_reconcile, hchk, hupd]

/-- C7 witness: disjoint singletons merge to their union. -/
theorem setup_reconcile_disjoint_witness :
    setup_reconcile [("a", "u")] [("b", "v")] = .ok [("a", "u"), ("b", "v")] :=
  setup_reconcile_disjoint [("a", "u")] [("b", "v")] (by decide) (by decide)

/-! ## Completeness: the hanging-parameter check of `Problem.setup` -/

/-- C6: the completeness step fails exactly when some parameter has no
connection entry, and its error carries every orphaned parameter (membership
in the interpolated list is equivalent to being an unconnected parameter). -/
theorem setup_check_complete_spec (params_dict : List String)
    (connections : List (String × String)) :
    (setup_check_complete params_dict connections = .ok () ↔
      hanging_params params_dict connections = []) ∧
    (hanging_params params_dict connections ≠ [] →
      setup_check_complete params_dict connections =
        .error (.hanging (hanging_params params_dict connections))) ∧
    (∀ p, p ∈ hanging_params params_dict connections ↔
      p ∈ params_dict ∧ dictLookup connections p = none) := by
  refine ⟨?_, ?_, ?_⟩
  · unfold setup_check_complete
    split_ifs with h
    · simp [h]
    · simp [not_ne_iff.mp h]
  · intro h
    simp [setup_check_complete, h]
  · intro p
    simp [hanging_params, List.mem_filter, Option.isNone_iff_eq_none]

/-- C6 witness: params `{p1, p2, p3}` with connections `{p1: u1, p3: u3}`
fail naming exactly `p2`. -/
theorem setup_check_complete_spec_witness :
    setup_check_complete ["p1", "p2", "p3"] [("p1", "u1"), ("p3", "u3")] =
      .error (.hanging ["p2"]) ∧
    ("p2" ∈ hanging_params ["p1", "p2", "p3"] [("p1", "u1"), ("p3", "u3")] ∧
     "p1" ∉ hanging_params ["p1", "p2", "p3"] [("p1", "u1"), ("p3", "u3")]) := by
  have h := setup_check_complete_spec ["p1", "p2", "p3"] [("p1", "u1"), ("p3", "u3")]
  refine ⟨?_, ?_, ?_⟩
  · have he := h.2.1 (by decide)
    rw [show hanging_params ["p1", "p2", "p3"] [("p1", "u1"), ("p3", "u3")] = ["p2"]
        from rfl] at he
    exact he
  · exact (h.2.2 "p2").mpr ⟨by decide, rfl⟩
  · intro hmem
    have := (h.2.2 "p1").mp hmem
    simp [dictLookup] at this

/-! ## Type and shape validation -/

/-- C2: the shape check matrix over tuple/absent shape declarations.  Both
declared: error exactly when the sequences differ.  Source absent, target
declared: error exactly when the source value's runtime dimensions differ
from the target's declared shape.  Both absent, or source declared with
target absent: the dispatch dict has no entry, so no check runs. -/
theorem check_shapes_match_spec (source target : VarMetadata) :
    (∀ a b, source.shape = .tup a → target.shape = .tup b →
      check_shapes_match source target =
        if a = b then .ok ()
        else .error (.connect
          (.shapeMismatch source.shape source.path target.shape target.path))) ∧
    (∀ b, source.shape = .pyNone → target.shape = .tup b →
      check_shapes_match source target =
        if source.val.dims = b then .ok ()
        else .error (.connect
          (.valShapeMismatch source.val.dims source.path target.shape target.path))) ∧
    (source.shape = .pyNone → target.shape = .pyNone →
      check_shapes_match source target = .ok ()) ∧
    (∀ a, source.shape = .tup a → target.shape = .pyNone →
      check_shapes_match source target = .ok ()) := by
  refine ⟨?_, ?_, ?_, ?_⟩
  · intro a b hs ht
    simp only [check_shapes_match, hs, ht, PyShape.ty, __check_shapes_match]
    by_cases hab : a = b
    · simp [hab]
    · simp [hab, hs, ht]
  · intro b hs ht
    simp only [check_shapes_match, hs, ht, PyShape.ty, __check_val_and_shape_match]
    by_cases hvb : source.val.dims = b
    · simp [hvb]
    · simp [hvb, ht]
  · intro hs ht
    simp [check_shapes_match, hs, ht, PyShape.ty]
  · intro a hs ht
    simp [check_shapes_match, hs, ht, PyShape.ty]

/-- C2 witness: `(shape=(3,), shape=(3,))` passes, `(shape=(3,), shape=(4,))`
fails, `(absent, (2,2))` passes for a value with dims `(2,2)`, and
`((3,), absent)` passes. -/
theorem check_shapes_match_spec_witness :
    check_shapes_match ⟨"s", ⟨"ndarray", [3]⟩, "ndarray", .tup [3]⟩
        ⟨"t", ⟨"ndarray", [3]⟩, "ndarray", .tup [3]⟩ = .ok () ∧
    check_shapes_match ⟨"s", ⟨"ndarray", [3]⟩, "ndarray", .tup [3]⟩
        ⟨"t", ⟨"ndarray", [4]⟩, "ndarray", .tup [4]⟩ =
      .error (.connect (.shapeMismatch (.tup [3]) "s" (.tup [4]) "t")) ∧
    check_shapes_match ⟨"s", ⟨"ndarray", [2, 2]⟩, "ndarray", .pyNone⟩
        ⟨"t", ⟨"ndarray", [2, 2]⟩, "ndarray", .tup [2, 2]⟩ = .ok () ∧
    check_shapes_match ⟨"s", ⟨"ndarray", [3]⟩, "ndarray", .tup [3]⟩
        ⟨"t", ⟨"ndarray", [3]⟩, "ndarray", .pyNone⟩ = .ok () := by
  refine ⟨?_, ?_, ?_, ?_⟩
  · have h := (check_shapes_match_spec ⟨"s", ⟨"ndarray", [3]⟩, "ndarray", .tup [3]⟩
        ⟨"t", ⟨"ndarray", [3]⟩, "ndarray", .tup [3]⟩).1 [3] [3] rfl rfl
    simpa using h
  · have h := (check_shapes_match_spec ⟨"s", ⟨"ndarray", [3]⟩, "ndarray", .tup [3]⟩
        ⟨"t", ⟨"ndarray", [4]⟩, "ndarray", .tup [4]⟩).1 [3] [4] rfl rfl
    simpa using h
  · have h := (check_shapes_match_spec ⟨"s", ⟨"ndarray", [2, 2]⟩, "ndarray", .pyNone⟩
        ⟨"t", ⟨"ndarray", [2, 2]⟩, "ndarray", .tup [2, 2]⟩).2.1 [2, 2] rfl rfl
    simpa using h
  · exact (check_shapes_match_spec ⟨"s", ⟨"ndarray", [3]⟩, "ndarray", .tup [3]⟩
        ⟨"t", ⟨"ndarray", [3]⟩, "ndarray", .pyNone⟩).2.2.2 [3] rfl rfl

/-- C5: per-connection validation (the loop body of `check_connections`)
raises `ConnectError` naming both paths and both kinds whenever the kinds
differ, and succeeds whenever the kinds agree and the two declared shapes
are equal (which covers equal shape tuples and mutually absent shapes). -/
theorem validate_connection_spec (source target : VarMetadata) :
    (source.type ≠ target.type →
      validate_connection source target =
        .error (.connect
          (.typeMismatch source.path source.type target.path target.type))) ∧
    (source.type = target.type → source.shape = target.shape →
      validate_connection source target = .ok ()) := by
  constructor
  · intro hne
    have h : check_types_match source target =
        .error (.connect
          (.typeMismatch source.path source.type target.path target.type)) := by
      simp [check_types_match, hne]
    unfold validate_connection
    rw [h]
    rfl
  · intro hty hsh
    have h1 : check_types_match source target = .ok () := by
      simp [check_types_match, hty]
    have h2 : validate_connection source target = check_shapes_match source target := by
      unfold validate_connection
      rw [h1]
      rfl
    rw [h2]
    cases hs : source.shape with
    | tup a =>
      rw [hs] at hsh
      simp [check_shapes_match, hs, ← hsh, PyShape.ty, __check_shapes_match]
    | pyNone =>
      rw [hs] at hsh
      simp [check_shapes_match, hs, ← hsh, PyShape.ty]
    | plist a =>
      rw [hs] at hsh
      simp [check_shapes_match, hs, ← hsh, PyShape.ty]
    | other c =>
      rw [hs] at hsh
      simp [check_shapes_match, hs, ← hsh, PyShape.ty]

/-- C5 witness: a float-valued source feeding an int-valued target fails
naming both paths and kinds; matching kinds and shapes succeed. -/
theorem validate_connection_spec_witness :
    validate_connection ⟨"s", ⟨"float", []⟩, "float", .pyNone⟩
        ⟨"t", ⟨"int", []⟩, "int", .pyNone⟩ =
      .error (.connect (.typeMismatch "s" "float" "t" "int")) ∧
    validate_connection ⟨"s", ⟨"float", []⟩, "float", .tup [3]⟩
        ⟨"t", ⟨"float", []⟩, "float", .tup [3]⟩ = .ok () := by
  constructor
  · exact (validate_connection_spec ⟨"s", ⟨"float", []⟩, "float", .pyNone⟩
        ⟨"t", ⟨"int", []⟩, "int", .pyNone⟩).1 (by decide)
  · exact (validate_connection_spec ⟨"s", ⟨"float", []⟩, "float", .tup [3]⟩
        ⟨"t", ⟨"float", []⟩, "float", .tup [3]⟩).2 rfl rfl

/-- C10: the dispatch dict `__shape_checks` has entries only for the runtime
type pairs `(tuple, tuple)` and `(NoneType, tuple)`; every other pair falls
back to the no-op default, so in particular two Python-list shapes — even
unequal ones — are never checked. -/
theorem check_shapes_match_unregistered (source target : VarMetadata) :
    (¬ ((source.shape.ty = .tupleTy ∧ target.shape.ty = .tupleTy) ∨
        (source.shape.ty = .noneTy ∧ target.shape.ty = .tupleTy)) →
      check_shapes_match source target = .ok ()) ∧
    (∀ a b, source.shape = .plist a → target.shape = .plist b →
      check_shapes_match source target = .ok ()) := by
  constructor
  · intro h
    cases hs : source.shape <;> cases ht : target.shape <;>
      simp_all [check_shapes_match, PyShape.ty]
  · intro a b hs ht
    simp [check_shapes_match, hs, ht, PyShape.ty]

/-- C10 witness: list shapes `[3]` and `[4]` differ yet no shape error is
raised. -/
theorem check_shapes_match_unregistered_witness :
    check_shapes_match ⟨"s", ⟨"ndarray", [3]⟩, "ndarray", .plist [3]⟩
        ⟨"t", ⟨"ndarray", [4]⟩, "ndarray", .plist [4]⟩ = .ok () :=
  (check_shapes_match_unregistered ⟨"s", ⟨"ndarray", [3]⟩, "ndarray", .plist [3]⟩
      ⟨"t", ⟨"ndarray", [4]⟩, "ndarray", .plist [4]⟩).2 [3] [4] rfl rfl

/-! ## Totality of `check_connections` -/

theorem check_shapes_match_cases (source target : VarMetadata) :
    check_shapes_match source target = .ok () ∨
    ∃ e, check_shapes_match source target = .error (.connect e) := by
  unfold check_shapes_match __check_shapes_match __check_val_and_shape_match
  cases source.shape.ty <;> cases target.shape.ty <;> dsimp only <;>
    first
      | exact Or.inl rfl
      | (split_ifs with hif
         · exact Or.inr ⟨_, rfl⟩
         · exact Or.inl rfl)

theorem validate_connection_cases (source target : VarMetadata) :
    validate_connection source target = .ok () ∨
    ∃ e, validate_connection source target = .error (.connect e) := by
  by_cases hty : source.type ≠ target.type
  · right
    refine ⟨.typeMismatch source.path source.type target.path target.type, ?_⟩
    have h : check_types_match source target =
        .error (.connect
          (.typeMismatch source.path source.type target.path target.type)) := by
      simp [check_types_match, hty]
    unfold validate_connection
    rw [h]
    rfl
  · have h1 : check_types_match source target = .ok () := by
      simp [check_types_match, hty]
    have h2 : validate_connection source target = check_shapes_match source target := by
      unfold validate_connection
      rw [h1]
      rfl
    rw [h2]
    exact check_shapes_match_cases source target

/-- C9: `check_connections` is total only under the precondition that every
target is a key of the params table and every source a key of the unknowns
table.  A missing source (or a missing target, once the source resolved)
makes `make_var_metadata` subscript the `None` returned by `.get`, failing
with a raw `TypeError` rather than a `ConnectError`; under the precondition
the result is either success or some `ConnectError`. -/
theorem check_connections_lookup_spec (params unknowns : List (String × Metadata)) :
    (∀ tgt src rest, dictLookup unknowns src = none →
      check_connections ((tgt, src) :: rest) params unknowns =
        .error PyError.typeError) ∧
    (∀ tgt src rest, (dictLookup unknowns src).isSome →
      dictLookup params tgt = none →
      check_connections ((tgt, src) :: rest) params unknowns =
        .error PyError.typeError) ∧
    (∀ connections,
      (∀ c ∈ connections, (dictLookup params c.1).isSome) →
      (∀ c ∈ connections, (dictLookup unknowns c.2).isSome) →
      check_connections connections params unknowns = .ok () ∨
      ∃ e, check_connections connections params unknowns = .error (.connect e)) := by
  refine ⟨?_, ?_, ?_⟩
  · intro tgt src rest h
    have hcons : check_connections ((tgt, src) :: rest) params unknowns =
        (do
          let source ← make_var_metadata src (dictLookup unknowns src)
          let target ← make_var_metadata tgt (dictLookup params tgt)
          validate_connection source target
          check_connections rest params unknowns) := rfl
    rw [hcons, h]
    rfl
  · intro tgt src rest hu hp
    obtain ⟨mu, hmu⟩ := Option.isSome_iff_exists.mp hu
    have hcons : check_connections ((tgt, src) :: rest) params unknowns =
        (do
          let source ← make_var_metadata src (dictLookup unknowns src)
          let target ← make_var_metadata tgt (dictLookup params tgt)
          validate_connection source target
          check_connections rest params unknowns) := rfl
    rw [hcons, hmu, hp]
    rfl
  · intro connections hp hu
    induction connections with
    | nil => exact Or.inl rfl
    | cons hd rest ih =>
      obtain ⟨tgt, src⟩ := hd
      obtain ⟨mp, hmp⟩ := Option.isSome_iff_exists.mp (hp (tgt, src) (by simp))
      obtain ⟨mu, hmu⟩ := Option.isSome_iff_exists.mp (hu (tgt, src) (by simp))
      have hmp' : dictLookup params tgt = some mp := hmp
      have hmu' : dictLookup unknowns src = some mu := hmu
      have hred : check_connections ((tgt, src) :: rest) params unknowns =
          (validate_connection ⟨src, mu.val, mu.val.kind, mu.shape⟩
              ⟨tgt, mp.val, mp.val.kind, mp.shape⟩ >>= fun _ =>
            check_connections rest params unknowns) := by
        have hcons : check_connections ((tgt, src) :: rest) params unknowns =
            (do
              let source ← make_var_metadata src (dictLookup unknowns src)
              let target ← make_var_metadata tgt (dictLookup params tgt)
              validate_connection source target
              check_connections rest params unknowns) := rfl
        rw [hcons, hmu', hmp']
        rfl
      have hrec := ih (fun c hc => hp c (by simp [hc])) (fun c hc => hu c (by simp [hc]))
      rcases validate_connection_cases ⟨src, mu.val, mu.val.kind, mu.shape⟩
          ⟨tgt, mp.val, mp.val.kind, mp.shape⟩ with hv | ⟨e, hv⟩
      · rcases hrec with hr | ⟨e, hr⟩
        · refine Or.inl ?_
          rw [hred, hv]
          exact hr
        · refine Or.inr ⟨e, ?_⟩
          rw [hred, hv]
          exact hr
      · refine Or.inr ⟨e, ?_⟩
        rw [hred, hv]
        rfl

/-- C9 witness: a connection whose source is absent from the unknowns table
fails with the raw `TypeError`; with both entries present and compatible the
check succeeds. -/
theorem check_connections_lookup_spec_witness :
    check_connections [("t1", "u1")] [("t1", ⟨⟨"float", []⟩, .pyNone⟩)] [] =
      .error PyError.typeError ∧
    check_connections [("t1", "u1")] [("t1", ⟨⟨"float", []⟩, .pyNone⟩)]
      [("u1", ⟨⟨"float", []⟩, .pyNone⟩)] = .ok () := by
  constructor
  · exact (check_connections_lookup_spec [("t1", ⟨⟨"float", []⟩, .pyNone⟩)] []).1
      "t1" "u1" [] rfl
  · have h := (check_connections_lookup_spec [("t1", ⟨⟨"float", []⟩, .pyNone⟩)]
        [("u1", ⟨⟨"float", []⟩, .pyNone⟩)]).2.2 [("t1", "u1")]
        (by intro c hc; simp at hc; simp [hc, dictLookup])
        (by intro c hc; simp at hc; simp [hc, dictLookup])
    rcases h with h | ⟨e, h⟩
    · exact h
    · rw [show check_connections [("t1", "u1")] [("t1", ⟨⟨"float", []⟩, .pyNone⟩)]
          [("u1", ⟨⟨"float", []⟩, .pyNone⟩)] = .ok () from rfl] at h
      exact Except.noConfusion h

/-! ## Ownership assignment -/

theorem common_parts_isPrefix (ps us : List String) :
    common_parts ps us <+: ps ∧ common_parts ps us <+: us := by
  induction ps generalizing us with
  | nil =>
    have h0 : common_parts [] us = [] := by cases us <;> rfl
    rw [h0]
    exact ⟨List.nil_prefix, List.nil_prefix⟩
  | cons p ps ih =>
    cases us with
    | nil => exact ⟨List.nil_prefix, List.nil_prefix⟩
    | cons u us =>
      by_cases h : p = u
      · subst h
        rw [show common_parts (p :: ps) (p :: us) = p :: common_parts ps us from by
          simp [common_parts]]
        obtain ⟨h1, h2⟩ := ih us
        exact ⟨List.cons_prefix_cons.mpr ⟨rfl, h1⟩, List.cons_prefix_cons.mpr ⟨rfl, h2⟩⟩
      · rw [show common_parts (p :: ps) (u :: us) = [] from by simp [common_parts, h]]
        exact ⟨List.nil_prefix, List.nil_prefix⟩

theorem common_parts_longest (ps us l : List String)
    (hp : l <+: ps) (hu : l <+: us) : l <+: common_parts ps us := by
  induction l generalizing ps us with
  | nil => exact List.nil_prefix
  | cons x l ih =>
    obtain ⟨tp, htp⟩ := hp
    obtain ⟨tu, htu⟩ := hu
    subst htp
    subst htu
    simp only [List.cons_append]
    rw [show common_parts (x :: (l ++ tp)) (x :: (l ++ tu)) =
        x :: common_parts (l ++ tp) (l ++ tu) from by simp [common_parts]]
    exact List.cons_prefix_cons.mpr ⟨rfl, ih (l ++ tp) (l ++ tu) ⟨tp, rfl⟩ ⟨tu, rfl⟩⟩

theorem lookupOwner_insertOwner (m : List (String × List String))
    (owner par o : String) :
    lookupOwner (insertOwner m owner par) o =
      if owner = o then lookupOwner m o ++ [par] else lookupOwner m o := by
  induction m with
  | nil =>
    by_cases h : owner = o <;> simp [insertOwner, lookupOwner, dictLookup, h]
  | cons hd rest ih =>
    obtain ⟨k, v⟩ := hd
    by_cases hk : k = owner
    · subst hk
      by_cases ho : k = o
      · subst ho
        simp [insertOwner, lookupOwner, dictLookup]
      · simp [insertOwner, lookupOwner, dictLookup, ho]
    · by_cases ho : k = o
      · subst ho
        have how : owner ≠ k := fun hEq => hk hEq.symm
        simp [insertOwner, lookupOwner, dictLookup, hk, how]
      · have ih' := ih
        simp only [lookupOwner] at ih'
        simp [insertOwner, lookupOwner, dictLookup, hk, ho, ih']

theorem lookupOwner_assign_aux (conns : List (String × String))
    (m : List (String × List String)) (o : String) :
    lookupOwner (conns.foldl (fun acc pu => insertOwner acc (ownerOf pu.1 pu.2) pu.1) m) o =
      lookupOwner m o ++
        ((conns.filter fun pu => ownerOf pu.1 pu.2 == o).map Prod.fst) := by
  induction conns generalizing m with
  | nil => simp
  | cons hd rest ih =>
    obtain ⟨par, unk⟩ := hd
    rw [List.foldl_cons, ih, lookupOwner_insertOwner]
    by_cases h : ownerOf par unk = o
    · simp [List.filter_cons, h]
    · simp [List.filter_cons, h]

theorem lookupOwner_assign_parameters (conns : List (String × String)) (o : String) :
    lookupOwner (assign_parameters conns) o =
      (conns.filter fun pu => ownerOf pu.1 pu.2 == o).map Prod.fst := by
  have h := lookupOwner_assign_aux conns [] o
  simpa [assign_parameters, lookupOwner, dictLookup] using h

theorem mem_keys_insertOwner (m : List (String × List String))
    (owner par o : String) :
    o ∈ (insertOwner m owner par).map Prod.fst ↔
      o ∈ m.map Prod.fst ∨ o = owner := by
  induction m with
  | nil => simp [insertOwner]
  | cons hd rest ih =>
    obtain ⟨k, v⟩ := hd
    by_cases hk : k = owner
    · subst hk
      have h1 : insertOwner ((k, v) :: rest) k par = (k, v ++ [par]) :: rest := by
        simp [insertOwner]
      rw [h1]
      simp only [List.map_cons, List.mem_cons]
      tauto
    · have h1 : insertOwner ((k, v) :: rest) owner par =
          (k, v) :: insertOwner rest owner par := by
        simp [insertOwner, hk]
      rw [h1]
      simp only [List.map_cons, List.mem_cons, ih]
      tauto

theorem mem_keys_assign_aux (conns : List (String × String))
    (m : List (String × List String)) (o : String) :
    (o ∈ (conns.foldl (fun acc pu => insertOwner acc (ownerOf pu.1 pu.2) pu.1) m).map Prod.fst) ↔
      o ∈ m.map Prod.fst ∨ ∃ pu ∈ conns, ownerOf pu.1 pu.2 = o := by
  induction conns generalizing m with
  | nil => simp
  | cons hd rest ih =>
    obtain ⟨par, unk⟩ := hd
    rw [List.foldl_cons, ih, mem_keys_insertOwner]
    constructor
    · rintro ((h | h) | h)
      · exact Or.inl h
      · exact Or.inr ⟨(par, unk), by simp, h.symm⟩
      · obtain ⟨pu, hm, ho⟩ := h
        exact Or.inr ⟨pu, by simp [hm], ho⟩
    · rintro (h | ⟨pu, hm, ho⟩)
      · exact Or.inl (Or.inl h)
      · rcases List.mem_cons.mp hm with hEq | hm'
        · subst hEq
          exact Or.inl (Or.inr ho.symm)
        · exact Or.inr ⟨pu, hm', ho⟩

theorem mem_keys_assign_parameters (conns : List (String × String)) (o : String) :
    o ∈ (assign_parameters conns).map Prod.fst ↔
      ∃ pu ∈ conns, ownerOf pu.1 pu.2 = o := by
  have h := mem_keys_assign_aux conns [] o
  simpa [assign_parameters] using h

/-- C3: the owner `assign_parameters` records for a connection is the
colon-join of the longest common prefix of the target's and source's
colon-separated segments (a common prefix of both segment lists that every
common prefix of both extends into), the target lands in that owner's list,
and the spec's examples hold, including the divergence example
`A:B:X` / `A:C:X` whose later equal segment `X` is not included. -/
theorem assign_parameters_owner_spec :
    (∀ par unk, ∃ cp, ownerOf par unk = colonJoin cp ∧
        cp <+: pySplitColon par ∧ cp <+: pySplitColon unk ∧
        ∀ l, l <+: pySplitColon par → l <+: pySplitColon unk → l <+: cp) ∧
    (∀ conns par unk, (par, unk) ∈ conns →
        par ∈ lookupOwner (assign_parameters conns) (ownerOf par unk)) ∧
    assign_parameters [("G1:C1:x", "G1:C2:y")] = [("G1", ["G1:C1:x"])] ∧
    assign_parameters [("G1:C1:x", "G1:C1:z")] = [("G1:C1", ["G1:C1:x"])] ∧
    assign_parameters [("A:x", "B:y")] = [("", ["A:x"])] ∧
    assign_parameters [("A:B:X", "A:C:X")] = [("A", ["A:B:X"])] := by
  refine ⟨?_, ?_, rfl, rfl, rfl, rfl⟩
  · intro par unk
    refine ⟨common_parts (pySplitColon par) (pySplitColon unk), rfl, ?_, ?_, ?_⟩
    · exact (common_parts_isPrefix (pySplitColon par) (pySplitColon unk)).1
    · exact (common_parts_isPrefix (pySplitColon par) (pySplitColon unk)).2
    · intro l hp hu
      exact common_parts_longest (pySplitColon par) (pySplitColon unk) l hp hu
  · intro conns par unk hmem
    rw [lookupOwner_assign_parameters]
    exact List.mem_map_of_mem Prod.fst (List.mem_filter.mpr ⟨hmem, by simp⟩)

/-- C3 witness: the connection `G1:C1:x ← G1:C2:y` is grouped under `G1`. -/
theorem assign_parameters_owner_spec_witness :
    "G1:C1:x" ∈ lookupOwner (assign_parameters [("G1:C1:x", "G1:C2:y")]) "G1" := by
  have h := assign_parameters_owner_spec.2.1 [("G1:C1:x", "G1:C2:y")]
      "G1:C1:x" "G1:C2:y" (by simp)
  rw [show ownerOf "G1:C1:x" "G1:C2:y" = "G1" from rfl] at h
  exact h

/-- C8: two connection mappings equal as sets of pairs (permutations of each
other) give ownership assignments with identical membership: the same owner
keys, and under each owner the same set of targets. -/
theorem assign_parameters_perm_invariant (c1 c2 : List (String × String))
    (h : c1.Perm c2) :
    (∀ o, o ∈ (assign_parameters c1).map Prod.fst ↔
      o ∈ (assign_parameters c2).map Prod.fst) ∧
    (∀ o par, par ∈ lookupOwner (assign_parameters c1) o ↔
      par ∈ lookupOwner (assign_parameters c2) o) := by
  constructor
  · intro o
    rw [mem_keys_assign_parameters, mem_keys_assign_parameters]
    constructor
    · rintro ⟨pu, hm, ho⟩
      exact ⟨pu, h.mem_iff.mp hm, ho⟩
    · rintro ⟨pu, hm, ho⟩
      exact ⟨pu, h.mem_iff.mpr hm, ho⟩
  · intro o par
    rw [lookupOwner_assign_parameters, lookupOwner_assign_parameters]
    exact ((h.filter _).map Prod.fst).mem_iff

/-- C8 witness: swapping two connections preserves grouping membership. -/
theorem assign_parameters_perm_invariant_witness :
    ("G1" ∈ (assign_parameters [("G1:C1:x", "G1:C2:y"), ("A:x", "B:y")]).map Prod.fst ↔
      "G1" ∈ (assign_parameters [("A:x", "B:y"), ("G1:C1:x", "G1:C2:y")]).map Prod.fst) ∧
    ("G1:C1:x" ∈ lookupOwner (assign_parameters
        [("G1:C1:x", "G1:C2:y"), ("A:x", "B:y")]) "G1" ↔
      "G1:C1:x" ∈ lookupOwner (assign_parameters
        [("A:x", "B:y"), ("G1:C1:x", "G1:C2:y")]) "G1") := by
  have h := assign_parameters_perm_invariant
      [("G1:C1:x", "G1:C2:y"), ("A:x", "B:y")]
      [("A:x", "B:y"), ("G1:C1:x", "G1:C2:y")]
      (List.Perm.swap ("A:x", "B:y") ("G1:C1:x", "G1:C2:y") [])
  exact ⟨h.1 "G1", h.2 "G1" "G1:C1:x"⟩
